import Mathlib

/-!
Verification of the reconciliation engine of the Uscreen/Salesforce sync
repository, a shallow embedding of `src/data-comparer.js`.

Modelling conventions, used throughout:

* Record fields reach the comparer through JavaScript fallback chains such as
  `user['User ID'] || user.user_id || user.id`.  Each chain is modelled as a
  single `Option String` field holding the chain's value: `none` when the
  chain ends in `undefined`/`null`, `some s` when it ends in the string `s`
  (possibly the empty string, which is falsy in JS).
* `String(x)` coercion on such a value is `jsStr` below (`undefined` prints
  as `"undefined"`).
* JS numbers produced by `parseFloat` are modelled as `Option ℚ`: `none` is
  `NaN`, `some q` an exact numeric value.  JS comparisons involving `NaN`
  are false, which the `jsLeZeroQ`/`jsGtZeroQ` helpers reproduce.  The JS
  `Infinity` literal and IEEE rounding are outside the modelled fragment:
  the program only ever compares these numbers with `0`, and rounding a
  decimal literal never changes its sign, so the exact-rational model is
  observationally equivalent on the modelled fragment.
* JS `Date` time values are modelled as `Option Int`: `none` is an Invalid
  Date (`NaN` time value), `some t` a valid instant measured in whole days
  since the Unix epoch.  The string grammar accepted by the model is the
  ISO calendar-date form `YYYY-MM-DD` (parsed by JS as UTC midnight); every
  other string is out of the modelled fragment and maps to `none`.  Days
  instead of milliseconds is an order-preserving rescaling: the program
  only compares and subtracts these values.
* `toLowerCase` is modelled on the ASCII range (`lcString`); the inputs in
  this development are ASCII.
-/

namespace UscreenExtract

/-- JS truthiness of an `undefined`-or-string value: `undefined` and the
empty string are falsy, every other string is truthy. -/
def truthyS : Option String → Bool
  | none => false
  | some s => s != ""

/-- JS `String(x)` coercion of an `undefined`-or-string value. -/
def jsStr : Option String → String
  | none => "undefined"
  | some s => s

/-- ASCII lower-casing of one character (model of JS `toLowerCase`). -/
def lcChar (c : Char) : Char :=
  if 'A' ≤ c ∧ c ≤ 'Z' then Char.ofNat (c.toNat + 32) else c

/-- ASCII lower-casing of a string (model of JS `toLowerCase`). -/
def lcString (s : String) : String :=
  String.mk (s.toList.map lcChar)

/-- Does the first list occur at the head of the second? -/
def headMatches : List Char → List Char → Bool
  | [], _ => true
  | _ :: _, [] => false
  | a :: as, b :: bs => a == b && headMatches as bs

/-- Does the first list occur as a contiguous sublist of the second? -/
def containsL (needle : List Char) : List Char → Bool
  | [] => headMatches needle []
  | c :: cs => headMatches needle (c :: cs) || containsL needle cs

/-- Model of JS `String.prototype.includes`. -/
def jsIncludes (hay needle : String) : Bool :=
  containsL needle.toList hay.toList

/-- Numeric value of a digit character. -/
def digitVal (c : Char) : Nat := c.toNat - '0'.toNat

/-- Value of a digit string read in base 10. -/
def digitsToNat (ds : List Char) : Nat :=
  ds.foldl (fun n c => 10 * n + digitVal c) 0

/-- ASCII whitespace skipped by `parseFloat` (model of JS StrWhiteSpace
restricted to ASCII). -/
def isJsSpace (c : Char) : Bool :=
  c == ' ' || c == '\t' || c == '\n' || c == '\r' || c == '\x0b' || c == '\x0c'

/-- Model of JS `parseFloat` on a character list: skip leading whitespace,
read an optional sign, then the longest prefix that is a decimal literal
(digits, optional fraction, optional well-formed exponent).  `none` is
`NaN`: no digits could be read at all.  The `Infinity` literal is outside
the modelled fragment and yields `none`; the program never distinguishes
`Infinity` from `NaN` on the paths studied here (both pass an `x <= 0`
test as false). -/
def parseFloatCore (cs0 : List Char) : Option ℚ :=
  let cs := cs0.dropWhile isJsSpace
  let sgn : Int := match cs with
    | '-' :: _ => -1
    | _ => 1
  let cs := match cs with
    | '-' :: rest => rest
    | '+' :: rest => rest
    | l => l
  let intDs := cs.takeWhile Char.isDigit
  let cs1 := cs.dropWhile Char.isDigit
  let fracDs := match cs1 with
    | '.' :: rest => rest.takeWhile Char.isDigit
    | _ => []
  let cs2 := match cs1 with
    | '.' :: rest => rest.dropWhile Char.isDigit
    | l => l
  if intDs.isEmpty && fracDs.isEmpty then none
  else
    let mantNum : Nat := digitsToNat intDs * 10 ^ fracDs.length + digitsToNat fracDs
    let expon : Int := match cs2 with
      | e :: rest =>
        if e == 'e' || e == 'E' then
          let eneg : Bool := match rest with
            | '-' :: _ => true
            | _ => false
          let rest2 := match rest with
            | '-' :: r => r
            | '+' :: r => r
            | l => l
          let eds := rest2.takeWhile Char.isDigit
          if eds.isEmpty then 0
          else if eneg then -(digitsToNat eds : Int)
          else (digitsToNat eds : Int)
        else 0
      | [] => 0
    let num : Int := sgn * mantNum * (10 ^ expon.toNat)
    let den : Nat := 10 ^ fracDs.length * 10 ^ (-expon).toNat
    some (mkRat num den)

/-- Model of JS `parseFloat` on a string. -/
def parseFloatJs (s : String) : Option ℚ :=
  parseFloatCore s.toList

/-- Is a (proleptic Gregorian) year a leap year? -/
def isLeap (y : Nat) : Bool :=
  y % 4 == 0 && (y % 100 != 0 || y % 400 == 0)

/-- Number of days in a month of a given year. -/
def daysInMonth (y m : Nat) : Nat :=
  if m == 2 then (if isLeap y then 29 else 28)
  else if m == 4 || m == 6 || m == 9 || m == 11 then 30
  else 31

/-- Days from the Unix epoch (1970-01-01 is day 0) of a civil date, by the
standard era-based Gregorian count; the year is shifted by 400 (146097
days per 400-year era) so the intermediate arithmetic stays in `Nat`. -/
def daysFromCivil (y m d : Nat) : Int :=
  let yy := y + 400
  let yAdj := if m ≤ 2 then yy - 1 else yy
  let era := yAdj / 400
  let yoe := yAdj - era * 400
  let mp := (m + 9) % 12
  let doy := (153 * mp + 2) / 5 + (d - 1)
  let doe := yoe * 365 + yoe / 4 - yoe / 100 + doy
  ((era * 146097 + doe : Nat) : Int) - 146097 - 719468

/-- Model of JS `new Date(string)` restricted to the ISO calendar-date form
`YYYY-MM-DD` (UTC midnight), the only date shape in the modelled fragment;
any other string is an Invalid Date (`none`, the `NaN` time value).  The
time value is counted in days since the epoch (an order-preserving
rescaling of the millisecond value, which the program only compares). -/
def parseDateJs (s : String) : Option Int :=
  match s.toList with
  | [y1, y2, y3, y4, '-', m1, m2, '-', d1, d2] =>
    if (y1.isDigit && y2.isDigit && y3.isDigit && y4.isDigit &&
        m1.isDigit && m2.isDigit && d1.isDigit && d2.isDigit) then
      let y := digitsToNat [y1, y2, y3, y4]
      let m := digitsToNat [m1, m2]
      let d := digitsToNat [d1, d2]
      if 1 ≤ m && m ≤ 12 && 1 ≤ d && d ≤ daysInMonth y m then
        some (daysFromCivil y m d)
      else none
    else none
  | _ => none

/-- JS `x <= 0` on a `parseFloat` result (`NaN <= 0` is false). -/
def jsLeZeroQ : Option ℚ → Bool
  | some q => q ≤ 0
  | none => false

/-- JS `x > 0` on a `parseFloat` result (`NaN > 0` is false). -/
def jsGtZeroQ : Option ℚ → Bool
  | some q => 0 < q
  | none => false

/-- JS `parseFloat(chain || 0)` where `chain` is a field fallback chain: a
falsy chain value falls through to the number `0`, a truthy one is parsed
as a string. -/
def parseAmountJs (o : Option String) : Option ℚ :=
  if truthyS o then parseFloatJs (o.getD "") else some 0

/-- A source member row, as read by `DataComparer.compare`.  Each field
holds the value of the corresponding fallback chain in the source
(`userId` for `user['User ID'] || user.user_id || user.id`, `email` for
`user.email || user['User email']`, `status` for
`user.Status || user.status`, `lifetime` for
`user['Lifetime'] || user.lifetime`, `segment` for `user.Segment`). -/
structure UUser where
  userId : Option String
  email : Option String
  status : Option String
  lifetime : Option String
  segment : Option String
deriving DecidableEq, Repr

/-- A source payment row, as read by `DataComparer.findLatestPayment`.
Fields hold fallback-chain values: `email` for `p.email || p.Email`,
`userId` for `p['User ID'] || p.user_id`, `amount` for
`p['Charge Amount'] || p.charge_amount || p.amount`, `chargeDate` for
`p['Charge Date'] || p.charge_date`, and the two pass-through fields. -/
structure UPayment where
  email : Option String
  userId : Option String
  amount : Option String
  chargeDate : Option String
  subscription : Option String
  paymentId : Option String
deriving DecidableEq, Repr

/-- A Salesforce record as flattened by `SalesforceClient.getProgramRoles`,
restricted to the fields `DataComparer` reads. -/
structure SFRecord where
  uscreenMemberId : Option String
  contactEmail : Option String
  uscreenSubscriptionStatus : Option String
  uscreenLastPaymentDate : Option String
deriving DecidableEq, Repr

/-- The `matchData` object built for each matched member
(`data-comparer.js` lines 50-55). -/
structure MatchData where
  uscreenUser : UUser
  sfRecord : SFRecord
  uscreenId : Option String
  email : String
deriving DecidableEq, Repr

/-- An entry of `results.cancelled` (`data-comparer.js` lines 62-66); the
source spreads `matchData` into the entry, modelled here by containment. -/
structure CancelledEntry where
  matchData : MatchData
  previousStatus : Option String
  newStatus : String
deriving DecidableEq, Repr

/-- The object returned by `findLatestPayment` (lines 134-140). -/
structure LatestPayment where
  email : Option String
  amount : Option ℚ
  chargeDate : Option String
  subscription : Option String
  paymentId : Option String
deriving DecidableEq, Repr

/-- An entry of `results.needsUpdate` (lines 78-83).  The two date fields
are JS values that are either `null` (`none`) or a `Date` object
(`some t`, itself `none` when the Date is invalid). -/
structure NeedsUpdateEntry where
  matchData : MatchData
  latestPayment : LatestPayment
  sfLastPaymentDate : Option (Option Int)
  uscreenLastPaymentDate : Option (Option Int)
deriving DecidableEq, Repr

/-- An entry of `results.newUsers` (lines 90-96). -/
structure NewUserEntry where
  uscreenUser : UUser
  uscreenId : Option String
  email : String
  lifetime : Option ℚ
  status : String
deriving DecidableEq, Repr

/-- An entry of `results.noMatch` (lines 98-103). -/
structure NoMatchEntry where
  uscreenUser : UUser
  uscreenId : Option String
  email : String
  reason : String
deriving DecidableEq, Repr

/-- The result buckets of `DataComparer.compare` (lines 27-33). -/
@[ext] structure Results where
  matched : List MatchData
  needsUpdate : List NeedsUpdateEntry
  newUsers : List NewUserEntry
  cancelled : List CancelledEntry
  noMatch : List NoMatchEntry
deriving DecidableEq, Repr

/-- The empty result buckets every `compare` call starts from. -/
def emptyResults : Results :=
  { matched := [], needsUpdate := [], newUsers := [], cancelled := [], noMatch := [] }

/-- The mutable instance state of a `DataComparer`: the two lookup maps
created in the constructor and filled by `compare`.  A JS `Map` keyed by
strings is modelled as its lookup function. -/
structure CmpState where
  sfByUscreenId : String → Option SFRecord
  sfByEmail : String → Option SFRecord

/-- `Map.prototype.set`: point update of a lookup map. -/
def mapSet (m : String → Option SFRecord) (k : String) (v : SFRecord) :
    String → Option SFRecord :=
  fun k' => if k' = k then some v else m k'

/-- The state of a freshly constructed `DataComparer` (lines 8-12): both
maps empty. -/
def initState : CmpState :=
  { sfByUscreenId := fun _ => none, sfByEmail := fun _ => none }

/-- One iteration of the index-building loop of `compare` (lines 18-25):
a record with a truthy `uscreenMemberId` is stored under its text form,
and one with a truthy `contactEmail` under its lowercased form. -/
def buildStep (st : CmpState) (sf : SFRecord) : CmpState :=
  let st1 :=
    if truthyS sf.uscreenMemberId then
      { st with sfByUscreenId := mapSet st.sfByUscreenId (jsStr sf.uscreenMemberId) sf }
    else st
  if truthyS sf.contactEmail then
    { st1 with sfByEmail := mapSet st1.sfByEmail (lcString (sf.contactEmail.getD "")) sf }
  else st1

/-- The index-building loop of `compare` (lines 18-25), extending the
instance's existing maps (the source never clears them). -/
def buildIndices (st : CmpState) (sfData : List SFRecord) : CmpState :=
  sfData.foldl buildStep st

/-- Does a Salesforce record occupy key `k` of the id index when it is
processed by `buildStep`? -/
def idKeyHit (k : String) (sf : SFRecord) : Bool :=
  truthyS sf.uscreenMemberId && jsStr sf.uscreenMemberId == k

/-- Does a Salesforce record occupy key `k` of the email index when it is
processed by `buildStep`? -/
def emailKeyHit (k : String) (sf : SFRecord) : Bool :=
  truthyS sf.contactEmail && lcString (sf.contactEmail.getD "") == k

/-- The member-matching step of `compare` (lines 43-46): look up the
member's id coerced to text in the id index; if that misses and the
member's (lowercased) email is truthy, fall back to the email index. -/
def matchUser (st : CmpState) (u : UUser) : Option SFRecord :=
  match st.sfByUscreenId (jsStr u.userId) with
  | some sf => some sf
  | none =>
    if lcString (u.email.getD "") != "" then st.sfByEmail (lcString (u.email.getD ""))
    else none

/-- The candidate filter of `findLatestPayment` (lines 113-122): a payment
passes iff its parsed amount is not a number `<= 0` (in JS a `NaN` amount
passes this test) and its lowercased email equals the member's or its user
id as text equals the member's id as text. -/
def qualifies (p : UPayment) (email : String) (uscreenId : Option String) : Bool :=
  let pEmail := lcString (p.email.getD "")
  let pUserId := p.userId.getD ""
  let amount := parseAmountJs p.amount
  if jsLeZeroQ amount then false
  else pEmail == email || pUserId == jsStr uscreenId

/-- The sort key of the comparator in `findLatestPayment` (lines 128-129):
`new Date(chain || 0)`, i.e. the parsed charge date when the chain is
truthy and the epoch otherwise. -/
def paySortVal (p : UPayment) : Option Int :=
  if truthyS p.chargeDate then parseDateJs (p.chargeDate.getD "") else some 0

/-- Whether the comparator `dateB - dateA` of lines 127-131 is strictly
positive on the pair `(a, b)` under JS arithmetic: false whenever either
date is invalid (`NaN` propagates and compares false). -/
def payCmpGt (a b : UPayment) : Bool :=
  match paySortVal a, paySortVal b with
  | some va, some vb => va < vb
  | _, _ => false

/-- One insertion step of a stable sort with the comparator of lines
127-131: the new element moves past exactly those earlier elements the
comparator orders strictly after it.  For candidate sets on which the
comparator is consistent (no invalid dates) this is the behaviour of JS
`Array.prototype.sort`, which is required to be stable; when the
comparator returns `NaN` the JS result is implementation-defined and this
model keeps input order for such pairs. -/
def insertPay (x : UPayment) : List UPayment → List UPayment
  | [] => [x]
  | y :: ys => if payCmpGt y x then x :: y :: ys else y :: insertPay x ys

/-- Stable sort of the candidate list by descending charge date (model of
`userPayments.sort(...)` on line 127; see `insertPay`). -/
def sortPays (l : List UPayment) : List UPayment :=
  l.foldl (fun acc x => insertPay x acc) []

/-- The object literal of lines 134-140 built from the winning payment. -/
def mkLatest (p : UPayment) : LatestPayment :=
  { email := p.email
    amount := parseAmountJs p.amount
    chargeDate := p.chargeDate
    subscription := p.subscription
    paymentId := p.paymentId }

/-- `DataComparer.findLatestPayment` (lines 111-141): filter the payments
by the candidate predicate, return `null` when none remain, otherwise sort
by descending charge date and package the first element. -/
def findLatestPayment (payments : List UPayment) (email : String)
    (uscreenId : Option String) : Option LatestPayment :=
  let userPayments := payments.filter (fun p => qualifies p email uscreenId)
  match sortPays userPayments with
  | [] => none
  | latest :: _ => some (mkLatest latest)

/-- JS `>` on two `Date` objects (numeric comparison of time values;
false whenever either is an Invalid Date). -/
def jsDateGt : Option (Option Int) → Option (Option Int) → Bool
  | some (some a), some (some b) => b < a
  | _, _ => false

/-- The cancellation test of lines 60-61: lowercased status equal to
`"cancelled"` or `"churned"`, or lowercased segment containing
`"churned"`. -/
def isCancelledUser (u : UUser) : Bool :=
  lcString (u.status.getD "") == "cancelled" ||
  lcString (u.status.getD "") == "churned" ||
  jsIncludes (lcString (u.segment.getD "")) "churned"

/-- The `matchData` object of lines 50-55, from the member and its matched
record (`uscreenId` and `email` are the member's extracted id and
lowercased email). -/
def mkMatchData (u : UUser) (sfRecord : SFRecord) : MatchData :=
  { uscreenUser := u, sfRecord := sfRecord, uscreenId := u.userId
    email := lcString (u.email.getD "") }

/-- Lines 72-73: `sfRecord.uscreenLastPaymentDate ? new Date(...) : null`. -/
def sfLastDateOf (sfRecord : SFRecord) : Option (Option Int) :=
  if truthyS sfRecord.uscreenLastPaymentDate then
    some (parseDateJs (sfRecord.uscreenLastPaymentDate.getD ""))
  else none

/-- Lines 74-75: `latestPayment.chargeDate ? new Date(...) : null`. -/
def payDateOf (lp : LatestPayment) : Option (Option Int) :=
  if truthyS lp.chargeDate then some (parseDateJs (lp.chargeDate.getD ""))
  else none

/-- The update test of line 77:
`uscreenPaymentDate && (!sfLastPaymentDate || uscreenPaymentDate > sfLastPaymentDate)`.
A `Date` object is truthy even when invalid, so the first conjunct only
checks that the charge-date field was truthy; the `>` comparison is false
whenever either date is invalid. -/
def needsUpdateCond (sfRecord : SFRecord) (lp : LatestPayment) : Bool :=
  (payDateOf lp).isSome &&
    ((sfLastDateOf sfRecord).isNone || jsDateGt (payDateOf lp) (sfLastDateOf sfRecord))

/-- The body of the per-member loop of `compare` (lines 36-106), acting on
the result accumulator. -/
def processUser (st : CmpState) (payments : List UPayment) (r : Results)
    (u : UUser) : Results :=
  match matchUser st u with
  | some sfRecord =>
    let matchData := mkMatchData u sfRecord
    let r1 := { r with matched := r.matched ++ [matchData] }
    let r2 :=
      if isCancelledUser u then
        { r1 with cancelled := r1.cancelled ++
            [{ matchData := matchData
               previousStatus := sfRecord.uscreenSubscriptionStatus
               newStatus := "cancelled" }] }
      else r1
    match findLatestPayment payments (lcString (u.email.getD "")) u.userId with
    | some latestPayment =>
      if needsUpdateCond sfRecord latestPayment then
        { r2 with needsUpdate := r2.needsUpdate ++
            [{ matchData := matchData
               latestPayment := latestPayment
               sfLastPaymentDate := sfLastDateOf sfRecord
               uscreenLastPaymentDate := payDateOf latestPayment }] }
      else r2
    | none => r2
  | none =>
    if jsGtZeroQ (parseAmountJs u.lifetime) then
      { r with newUsers := r.newUsers ++
          [{ uscreenUser := u, uscreenId := u.userId, email := lcString (u.email.getD "")
             lifetime := parseAmountJs u.lifetime, status := lcString (u.status.getD "") }] }
    else
      { r with noMatch := r.noMatch ++
          [{ uscreenUser := u, uscreenId := u.userId, email := lcString (u.email.getD "")
             reason := "No SF match, $0 lifetime" }] }

/-- `DataComparer.compare` (lines 14-109) on an instance state: extend the
instance's lookup maps with the given Salesforce records (the maps are
never cleared, so entries from earlier calls persist), then classify every
member, returning the updated instance state together with the result. -/
def DataComparer.compare (st : CmpState) (users : List UUser)
    (payments : List UPayment) (sfData : List SFRecord) : CmpState × Results :=
  let st' := buildIndices st sfData
  (st', users.foldl (processUser st' payments) emptyResults)

/-- `new DataComparer().compare(...)`: one call on a fresh instance, the
way `index.js` invokes the comparer. -/
def compareFresh (users : List UUser) (payments : List UPayment)
    (sfData : List SFRecord) : Results :=
  (DataComparer.compare initState users payments sfData).2

/-- What one member contributes to `results.matched`. -/
def matchedOf (st : CmpState) (u : UUser) : List MatchData :=
  match matchUser st u with
  | some sfRecord => [mkMatchData u sfRecord]
  | none => []

/-- What one member contributes to `results.cancelled`. -/
def cancelledOf (st : CmpState) (u : UUser) : List CancelledEntry :=
  match matchUser st u with
  | some sfRecord =>
    if isCancelledUser u then
      [{ matchData := mkMatchData u sfRecord
         previousStatus := sfRecord.uscreenSubscriptionStatus
         newStatus := "cancelled" }]
    else []
  | none => []

/-- What one member contributes to `results.needsUpdate`. -/
def needsUpdateOf (st : CmpState) (payments : List UPayment) (u : UUser) :
    List NeedsUpdateEntry :=
  match matchUser st u with
  | some sfRecord =>
    match findLatestPayment payments (lcString (u.email.getD "")) u.userId with
    | some latestPayment =>
      if needsUpdateCond sfRecord latestPayment then
        [{ matchData := mkMatchData u sfRecord
           latestPayment := latestPayment
           sfLastPaymentDate := sfLastDateOf sfRecord
           uscreenLastPaymentDate := payDateOf latestPayment }]
      else []
    | none => []
  | none => []

/-- What one member contributes to `results.newUsers`. -/
def newUsersOf (st : CmpState) (u : UUser) : List NewUserEntry :=
  match matchUser st u with
  | some _ => []
  | none =>
    if jsGtZeroQ (parseAmountJs u.lifetime) then
      [{ uscreenUser := u, uscreenId := u.userId, email := lcString (u.email.getD "")
         lifetime := parseAmountJs u.lifetime, status := lcString (u.status.getD "") }]
    else []

/-- What one member contributes to `results.noMatch`. -/
def noMatchOf (st : CmpState) (u : UUser) : List NoMatchEntry :=
  match matchUser st u with
  | some _ => []
  | none =>
    if jsGtZeroQ (parseAmountJs u.lifetime) then []
    else
      [{ uscreenUser := u, uscreenId := u.userId, email := lcString (u.email.getD "")
         reason := "No SF match, $0 lifetime" }]

/-- Modelled from the spec, not from the source: the sentinel date policy
of spec §4.2/§7, under which a missing or unparseable date denotes the
earliest-possible instant (`⊥`).  Used only to state refuted claims that
were written against this policy. -/
def specParsedDate (s : Option String) : WithBot Int :=
  match s with
  | none => ⊥
  | some str =>
    match parseDateJs str with
    | none => ⊥
    | some t => (t : WithBot Int)


/-! Supporting lemmas: the result buckets of one `compare` call are the
concatenation of per-member contributions, the candidate sort is a stable
descending sort, and index lookups resolve to the last inserted record. -/

theorem processUser_eq (st : CmpState) (payments : List UPayment) (r : Results)
    (u : UUser) :
    processUser st payments r u =
      { matched := r.matched ++ matchedOf st u
        needsUpdate := r.needsUpdate ++ needsUpdateOf st payments u
        newUsers := r.newUsers ++ newUsersOf st u
        cancelled := r.cancelled ++ cancelledOf st u
        noMatch := r.noMatch ++ noMatchOf st u } := by
  cases hm : matchUser st u with
  | none =>
    simp only [processUser, matchedOf, cancelledOf, needsUpdateOf, newUsersOf, noMatchOf, hm]
    split <;> simp
  | some sf =>
    simp only [processUser, matchedOf, cancelledOf, needsUpdateOf, newUsersOf, noMatchOf, hm]
    cases hf : findLatestPayment payments (lcString (u.email.getD "")) u.userId with
    | none =>
      by_cases hc : isCancelledUser u <;> simp [hc]
    | some lp =>
      by_cases hc : isCancelledUser u <;> by_cases hn : needsUpdateCond sf lp <;>
        simp [hc, hn]

theorem foldl_processUser (st : CmpState) (payments : List UPayment)
    (users : List UUser) (r : Results) :
    users.foldl (processUser st payments) r =
      { matched := r.matched ++ users.flatMap (matchedOf st)
        needsUpdate := r.needsUpdate ++ users.flatMap (needsUpdateOf st payments)
        newUsers := r.newUsers ++ users.flatMap (newUsersOf st)
        cancelled := r.cancelled ++ users.flatMap (cancelledOf st)
        noMatch := r.noMatch ++ users.flatMap (noMatchOf st) } := by
  induction users generalizing r with
  | nil => simp
  | cons u us ih =>
    rw [List.foldl_cons, processUser_eq, ih]
    simp [List.flatMap_cons]

theorem compare_results (st : CmpState) (users : List UUser)
    (payments : List UPayment) (sfData : List SFRecord) :
    (DataComparer.compare st users payments sfData).2 =
      { matched := users.flatMap (matchedOf (buildIndices st sfData))
        needsUpdate := users.flatMap (needsUpdateOf (buildIndices st sfData) payments)
        newUsers := users.flatMap (newUsersOf (buildIndices st sfData))
        cancelled := users.flatMap (cancelledOf (buildIndices st sfData))
        noMatch := users.flatMap (noMatchOf (buildIndices st sfData)) } := by
  have h := foldl_processUser (buildIndices st sfData) payments users emptyResults
  simpa [DataComparer.compare, emptyResults] using h

theorem mem_matchedOf {st : CmpState} {u : UUser} {md : MatchData}
    (h : md ∈ matchedOf st u) :
    ∃ sf, matchUser st u = some sf ∧ md = mkMatchData u sf := by
  unfold matchedOf at h
  rcases hm : matchUser st u with _ | sf <;> rw [hm] at h <;> simp at h
  exact ⟨sf, rfl, h⟩

theorem matchedOf_of_match {st : CmpState} {u : UUser} {sf : SFRecord}
    (hm : matchUser st u = some sf) :
    matchedOf st u = [mkMatchData u sf] := by
  unfold matchedOf
  rw [hm]

theorem needsUpdateOf_shape {st : CmpState} {ps : List UPayment} {u : UUser}
    {e : NeedsUpdateEntry} (h : e ∈ needsUpdateOf st ps u) :
    ∃ sf lp, matchUser st u = some sf ∧
      findLatestPayment ps (lcString (u.email.getD "")) u.userId = some lp ∧
      needsUpdateCond sf lp = true ∧
      e = { matchData := mkMatchData u sf, latestPayment := lp
            sfLastPaymentDate := sfLastDateOf sf
            uscreenLastPaymentDate := payDateOf lp } := by
  unfold needsUpdateOf at h
  rcases hm : matchUser st u with _ | sf <;> rw [hm] at h
  · simp at h
  rcases hf : findLatestPayment ps (lcString (u.email.getD "")) u.userId with _ | lp <;>
    rw [hf] at h
  · simp at h
  by_cases hc : needsUpdateCond sf lp
  · simp [hc] at h
    exact ⟨sf, lp, rfl, rfl, hc, h⟩
  · simp [hc] at h

theorem needsUpdateOf_of_cond {st : CmpState} {ps : List UPayment} {u : UUser}
    {sf : SFRecord} {lp : LatestPayment} (hm : matchUser st u = some sf)
    (hf : findLatestPayment ps (lcString (u.email.getD "")) u.userId = some lp)
    (hc : needsUpdateCond sf lp = true) :
    needsUpdateOf st ps u =
      [{ matchData := mkMatchData u sf, latestPayment := lp
         sfLastPaymentDate := sfLastDateOf sf
         uscreenLastPaymentDate := payDateOf lp }] := by
  unfold needsUpdateOf
  rw [hm, hf]
  simp [hc]

theorem cancelledOf_shape {st : CmpState} {u : UUser} {e : CancelledEntry}
    (h : e ∈ cancelledOf st u) :
    ∃ sf, matchUser st u = some sf ∧ isCancelledUser u = true ∧
      e = { matchData := mkMatchData u sf
            previousStatus := sf.uscreenSubscriptionStatus
            newStatus := "cancelled" } := by
  unfold cancelledOf at h
  rcases hm : matchUser st u with _ | sf <;> rw [hm] at h
  · simp at h
  by_cases hc : isCancelledUser u
  · simp [hc] at h
    exact ⟨sf, rfl, hc, h⟩
  · simp [hc] at h

theorem cancelledOf_of_cond {st : CmpState} {u : UUser} {sf : SFRecord}
    (hm : matchUser st u = some sf) (hc : isCancelledUser u = true) :
    cancelledOf st u =
      [{ matchData := mkMatchData u sf
         previousStatus := sf.uscreenSubscriptionStatus
         newStatus := "cancelled" }] := by
  unfold cancelledOf
  rw [hm]
  simp [hc]

theorem newUsersOf_shape {st : CmpState} {u : UUser} {e : NewUserEntry}
    (h : e ∈ newUsersOf st u) :
    matchUser st u = none ∧ jsGtZeroQ (parseAmountJs u.lifetime) = true ∧
      e.uscreenUser = u := by
  unfold newUsersOf at h
  rcases hm : matchUser st u with _ | sf <;> rw [hm] at h
  · by_cases hl : jsGtZeroQ (parseAmountJs u.lifetime)
    · simp [hl] at h
      exact ⟨rfl, hl, by rw [h]⟩
    · simp [hl] at h
  · simp at h

theorem noMatchOf_shape {st : CmpState} {u : UUser} {e : NoMatchEntry}
    (h : e ∈ noMatchOf st u) :
    matchUser st u = none ∧ jsGtZeroQ (parseAmountJs u.lifetime) = false ∧
      e.uscreenUser = u := by
  unfold noMatchOf at h
  rcases hm : matchUser st u with _ | sf <;> rw [hm] at h
  · by_cases hl : jsGtZeroQ (parseAmountJs u.lifetime)
    · simp [hl] at h
    · simp [hl] at h
      exact ⟨rfl, Bool.eq_false_iff.2 hl, by rw [h]⟩
  · simp at h

theorem bucketsOf_count (st : CmpState) (u : UUser) :
    (matchedOf st u).length + (newUsersOf st u).length + (noMatchOf st u).length = 1 := by
  unfold matchedOf newUsersOf noMatchOf
  rcases hm : matchUser st u with _ | sf
  · by_cases hl : jsGtZeroQ (parseAmountJs u.lifetime) <;> simp [hl]
  · simp

theorem mem_insertPay {x a : UPayment} {l : List UPayment} :
    a ∈ insertPay x l ↔ a = x ∨ a ∈ l := by
  induction l with
  | nil => simp [insertPay]
  | cons y ys ih =>
    by_cases hg : payCmpGt y x
    · simp only [insertPay, if_pos hg, List.mem_cons, ih]
    · simp only [insertPay, if_neg hg, List.mem_cons, ih]
      tauto

theorem mem_foldl_insertPay {a : UPayment} (l : List UPayment) (acc : List UPayment) :
    a ∈ l.foldl (fun acc x => insertPay x acc) acc ↔ a ∈ acc ∨ a ∈ l := by
  induction l generalizing acc with
  | nil => simp
  | cons y ys ih =>
    rw [List.foldl_cons, ih, mem_insertPay]
    simp only [List.mem_cons]
    tauto

theorem mem_sortPays {a : UPayment} {l : List UPayment} :
    a ∈ sortPays l ↔ a ∈ l := by
  unfold sortPays
  rw [mem_foldl_insertPay]
  simp

theorem sortPays_nil_iff {l : List UPayment} : sortPays l = [] ↔ l = [] := by
  constructor
  · intro h
    cases l with
    | nil => rfl
    | cons x xs =>
      exfalso
      have hx : x ∈ sortPays (x :: xs) := mem_sortPays.2 (List.mem_cons_self x xs)
      rw [h] at hx
      simp at hx
  · intro h; rw [h]; rfl

theorem payCmpGt_iff {a b : UPayment} :
    payCmpGt a b = true ↔
      ∃ va vb : Int, paySortVal a = some va ∧ paySortVal b = some vb ∧ va < vb := by
  unfold payCmpGt
  cases ha : paySortVal a with
  | none => simp
  | some va =>
    cases hb : paySortVal b with
    | none => simp
    | some vb => simp

theorem qualifies_iff {p : UPayment} {email : String} {id : Option String} :
    qualifies p email id = true ↔
      jsLeZeroQ (parseAmountJs p.amount) = false ∧
        (lcString (p.email.getD "") = email ∨ p.userId.getD "" = jsStr id) := by
  unfold qualifies
  by_cases ha : jsLeZeroQ (parseAmountJs p.amount) <;> simp [ha]

theorem findLatestPayment_eq (ps : List UPayment) (email : String)
    (id : Option String) :
    findLatestPayment ps email id =
      (match sortPays (ps.filter (fun p => qualifies p email id)) with
       | [] => none
       | latest :: _ => some (mkLatest latest)) := rfl

theorem findLatestPayment_none_iff {ps : List UPayment} {email : String}
    {id : Option String} :
    findLatestPayment ps email id = none ↔ ∀ p ∈ ps, qualifies p email id = false := by
  constructor
  · intro h p hp
    by_contra hq
    have hq2 : qualifies p email id = true := by simpa using hq
    have hmem : p ∈ ps.filter (fun p => qualifies p email id) :=
      List.mem_filter.2 ⟨hp, hq2⟩
    have hne : ps.filter (fun p => qualifies p email id) ≠ [] := by
      intro hnil
      rw [hnil] at hmem
      simp at hmem
    have hsne : sortPays (ps.filter (fun p => qualifies p email id)) ≠ [] := by
      intro hnil
      exact hne (sortPays_nil_iff.1 hnil)
    rcases List.exists_cons_of_ne_nil hsne with ⟨q, t, hqt⟩
    have : findLatestPayment ps email id = some (mkLatest q) := by
      rw [findLatestPayment_eq, hqt]
    rw [h] at this
    exact Option.noConfusion this
  · intro hall
    have hf : ps.filter (fun p => qualifies p email id) = [] := by
      apply List.filter_eq_nil_iff.2
      intro p hp
      simp [hall p hp]
    rw [findLatestPayment_eq, hf]
    rfl

theorem findLatestPayment_some_iff {ps : List UPayment} {email : String}
    {id : Option String} {lp : LatestPayment} :
    findLatestPayment ps email id = some lp ↔
      ∃ q t, sortPays (ps.filter (fun p => qualifies p email id)) = q :: t ∧
        lp = mkLatest q := by
  constructor
  · intro h
    rw [findLatestPayment_eq] at h
    cases hs : sortPays (ps.filter (fun p => qualifies p email id)) with
    | nil =>
      rw [hs] at h
      exact Option.noConfusion h
    | cons q t =>
      rw [hs] at h
      simp only [Option.some_inj] at h
      exact ⟨q, t, rfl, h.symm⟩
  · rintro ⟨q, t, hqt, hlp⟩
    rw [findLatestPayment_eq, hqt, hlp]

theorem buildStep_id_lookup (st : CmpState) (sf : SFRecord) (k : String) :
    (buildStep st sf).sfByUscreenId k =
      (if idKeyHit k sf then some sf else st.sfByUscreenId k) := by
  unfold buildStep idKeyHit
  by_cases ht : truthyS sf.uscreenMemberId
  · by_cases hk : k = jsStr sf.uscreenMemberId
    · subst hk
      by_cases he : truthyS sf.contactEmail <;> simp [ht, he, mapSet]
    · have : ¬ (jsStr sf.uscreenMemberId == k) = true := by
        simp only [beq_iff_eq]
        intro h
        exact hk h.symm
      by_cases he : truthyS sf.contactEmail <;> simp [ht, he, mapSet, hk] <;> simp_all
  · by_cases he : truthyS sf.contactEmail <;> simp [ht, he]

theorem buildStep_email_lookup (st : CmpState) (sf : SFRecord) (k : String) :
    (buildStep st sf).sfByEmail k =
      (if emailKeyHit k sf then some sf else st.sfByEmail k) := by
  unfold buildStep emailKeyHit
  by_cases he : truthyS sf.contactEmail
  · by_cases hk : k = lcString (sf.contactEmail.getD "")
    · subst hk
      by_cases ht : truthyS sf.uscreenMemberId <;> simp [ht, he, mapSet]
    · have : ¬ (lcString (sf.contactEmail.getD "") == k) = true := by
        simp only [beq_iff_eq]
        intro h
        exact hk h.symm
      by_cases ht : truthyS sf.uscreenMemberId <;> simp [ht, he, mapSet, hk] <;> simp_all
  · by_cases ht : truthyS sf.uscreenMemberId <;> simp [ht, he]

theorem getLastOpt_cons {α : Type} (a : α) (l : List α) :
    (a :: l).getLast? =
      (match l.getLast? with
       | some r => some r
       | none => some a) := by
  cases l with
  | nil => rfl
  | cons b m =>
    rw [List.getLast?_cons_cons]
    cases hm : (b :: m).getLast? with
    | none =>
      exfalso
      rw [List.getLast?_eq_none_iff] at hm
      simp at hm
    | some r => rfl

theorem buildIndices_id_lookup (st : CmpState) (sfData : List SFRecord) (k : String) :
    (buildIndices st sfData).sfByUscreenId k =
      (match (sfData.filter (idKeyHit k)).getLast? with
       | some r => some r
       | none => st.sfByUscreenId k) := by
  induction sfData generalizing st with
  | nil => rfl
  | cons sf rest ih =>
    have hstep : buildIndices st (sf :: rest) = buildIndices (buildStep st sf) rest := rfl
    rw [hstep, ih]
    by_cases hhit : idKeyHit k sf
    · rw [List.filter_cons_of_pos (by simpa using hhit), getLastOpt_cons]
      cases hr : (rest.filter (idKeyHit k)).getLast? with
      | none => simp [buildStep_id_lookup, hhit]
      | some r => rfl
    · rw [List.filter_cons_of_neg (by simpa using hhit)]
      cases hr : (rest.filter (idKeyHit k)).getLast? with
      | none => simp [buildStep_id_lookup, hhit]
      | some r => rfl

theorem buildIndices_email_lookup (st : CmpState) (sfData : List SFRecord) (k : String) :
    (buildIndices st sfData).sfByEmail k =
      (match (sfData.filter (emailKeyHit k)).getLast? with
       | some r => some r
       | none => st.sfByEmail k) := by
  induction sfData generalizing st with
  | nil => rfl
  | cons sf rest ih =>
    have hstep : buildIndices st (sf :: rest) = buildIndices (buildStep st sf) rest := rfl
    rw [hstep, ih]
    by_cases hhit : emailKeyHit k sf
    · rw [List.filter_cons_of_pos (by simpa using hhit), getLastOpt_cons]
      cases hr : (rest.filter (emailKeyHit k)).getLast? with
      | none => simp [buildStep_email_lookup, hhit]
      | some r => rfl
    · rw [List.filter_cons_of_neg (by simpa using hhit)]
      cases hr : (rest.filter (emailKeyHit k)).getLast? with
      | none => simp [buildStep_email_lookup, hhit]
      | some r => rfl

/-- The order compatible with the payment comparator: whenever both sort
keys are valid dates, the left one is at least the right one. -/
def PayGe (a b : UPayment) : Prop :=
  ∀ ka kb : Int, paySortVal a = some ka → paySortVal b = some kb → kb ≤ ka

theorem payGe_of_cmp_true {x y : UPayment} (hg : payCmpGt y x = true) : PayGe x y := by
  rcases payCmpGt_iff.1 hg with ⟨vy, vx, hvy, hvx, hlt⟩
  intro ka kb hka hkb
  rw [hvx] at hka
  rw [hvy] at hkb
  have e1 : vx = ka := Option.some_inj.1 hka
  have e2 : vy = kb := Option.some_inj.1 hkb
  omega

theorem payGe_of_cmp_false {x y : UPayment} (hg : payCmpGt y x = false) : PayGe y x := by
  intro ka kb hka hkb
  by_contra hcon
  push_neg at hcon
  have : payCmpGt y x = true := payCmpGt_iff.2 ⟨ka, kb, hka, hkb, by omega⟩
  rw [hg] at this
  exact Bool.false_ne_true this

theorem insertPay_pairwise {x : UPayment} {l : List UPayment}
    (h : l.Pairwise PayGe) : (insertPay x l).Pairwise PayGe := by
  induction l with
  | nil => simp [insertPay]
  | cons y ys ih =>
    rcases List.pairwise_cons.1 h with ⟨hy, hys⟩
    by_cases hg : payCmpGt y x
    · simp only [insertPay, if_pos hg]
      apply List.pairwise_cons.2
      refine ⟨?_, h⟩
      intro z hz
      rcases List.mem_cons.1 hz with rfl | hz2
      · exact payGe_of_cmp_true hg
      · intro kx kz hkx hkz
        rcases payCmpGt_iff.1 hg with ⟨vy, vx, hvy, hvx, hlt⟩
        have hyz := hy z hz2 vy kz hvy hkz
        rw [hvx] at hkx
        have : vx = kx := Option.some_inj.1 hkx
        omega
    · simp only [insertPay, if_neg hg]
      apply List.pairwise_cons.2
      refine ⟨?_, ih hys⟩
      intro z hz
      rcases mem_insertPay.1 hz with rfl | hz2
      · exact payGe_of_cmp_false (Bool.eq_false_iff.2 hg)
      · exact hy z hz2

theorem sortPays_pairwise (l : List UPayment) : (sortPays l).Pairwise PayGe := by
  unfold sortPays
  have key : ∀ acc : List UPayment, acc.Pairwise PayGe →
      (l.foldl (fun acc x => insertPay x acc) acc).Pairwise PayGe := by
    induction l with
    | nil => intro acc h; simpa using h
    | cons y ys ih =>
      intro acc h
      rw [List.foldl_cons]
      exact ih _ (insertPay_pairwise h)
  exact key [] (by simp)

theorem sortPays_head_max {l : List UPayment} {q : UPayment} {t : List UPayment}
    (hs : sortPays l = q :: t) :
    ∀ p ∈ l, ∀ kp kq : Int, paySortVal p = some kp → paySortVal q = some kq → kp ≤ kq := by
  have hpw := sortPays_pairwise l
  rw [hs] at hpw
  intro p hp kp kq hkp hkq
  have hp2 : p ∈ q :: t := by
    rw [← hs]
    exact mem_sortPays.2 hp
  rcases List.mem_cons.1 hp2 with rfl | hp3
  · rw [hkp] at hkq
    have := Option.some_inj.1 hkq
    omega
  · exact (List.pairwise_cons.1 hpw).1 p hp3 kq kp hkq hkp

theorem needsUpdateCond_iff (sf : SFRecord) (lp : LatestPayment) :
    needsUpdateCond sf lp = true ↔
      truthyS lp.chargeDate = true ∧
        (truthyS sf.uscreenLastPaymentDate = false ∨
          jsDateGt (some (parseDateJs (lp.chargeDate.getD "")))
            (some (parseDateJs (sf.uscreenLastPaymentDate.getD ""))) = true) := by
  unfold needsUpdateCond payDateOf sfLastDateOf
  by_cases hc : truthyS lp.chargeDate <;>
    by_cases hs : truthyS sf.uscreenLastPaymentDate <;> simp [hc, hs]

theorem isCancelledUser_iff (u : UUser) :
    isCancelledUser u = true ↔
      (lcString (u.status.getD "") = "cancelled" ∨
        lcString (u.status.getD "") = "churned" ∨
        jsIncludes (lcString (u.segment.getD "")) "churned" = true) := by
  unfold isCancelledUser
  simp [or_assoc]

theorem exists_user_needsUpdate_iff {st : CmpState} {payments : List UPayment}
    {users : List UUser} {u : UUser} (hu : u ∈ users) :
    (∃ e ∈ users.flatMap (needsUpdateOf st payments), e.matchData.uscreenUser = u) ↔
      needsUpdateOf st payments u ≠ [] := by
  constructor
  · rintro ⟨e, he, hp⟩
    rcases List.mem_flatMap.1 he with ⟨a, _, hfa⟩
    rcases needsUpdateOf_shape hfa with ⟨sf, lp, _, _, _, hesh⟩
    have hea : e.matchData.uscreenUser = a := by rw [hesh]; rfl
    rw [hp] at hea
    intro hnil
    rw [hea] at hnil
    rw [hnil] at hfa
    simp at hfa
  · intro hne
    rcases List.exists_mem_of_ne_nil _ hne with ⟨e, he⟩
    rcases needsUpdateOf_shape he with ⟨sf, lp, _, _, _, hesh⟩
    refine ⟨e, List.mem_flatMap.2 ⟨u, hu, he⟩, ?_⟩
    rw [hesh]
    rfl

theorem exists_user_cancelled_iff {st : CmpState} {users : List UUser} {u : UUser}
    (hu : u ∈ users) :
    (∃ e ∈ users.flatMap (cancelledOf st), e.matchData.uscreenUser = u) ↔
      cancelledOf st u ≠ [] := by
  constructor
  · rintro ⟨e, he, hp⟩
    rcases List.mem_flatMap.1 he with ⟨a, _, hfa⟩
    rcases cancelledOf_shape hfa with ⟨sf, _, _, hesh⟩
    have hea : e.matchData.uscreenUser = a := by rw [hesh]; rfl
    rw [hp] at hea
    intro hnil
    rw [hea] at hnil
    rw [hnil] at hfa
    simp at hfa
  · intro hne
    rcases List.exists_mem_of_ne_nil _ hne with ⟨e, he⟩
    rcases cancelledOf_shape he with ⟨sf, _, _, hesh⟩
    refine ⟨e, List.mem_flatMap.2 ⟨u, hu, he⟩, ?_⟩
    rw [hesh]
    rfl

theorem lengths_sum (st : CmpState) (users : List UUser) :
    (users.flatMap (matchedOf st)).length + (users.flatMap (newUsersOf st)).length +
      (users.flatMap (noMatchOf st)).length = users.length := by
  induction users with
  | nil => simp
  | cons u us ih =>
    simp only [List.flatMap_cons, List.length_append, List.length_cons]
    have := bucketsOf_count st u
    omega


/-! Claim theorems. -/

theorem compare_matched (st : CmpState) (users : List UUser)
    (payments : List UPayment) (sfData : List SFRecord) :
    (DataComparer.compare st users payments sfData).2.matched =
      users.flatMap (matchedOf (buildIndices st sfData)) := by
  rw [compare_results]

theorem compare_needsUpdate (st : CmpState) (users : List UUser)
    (payments : List UPayment) (sfData : List SFRecord) :
    (DataComparer.compare st users payments sfData).2.needsUpdate =
      users.flatMap (needsUpdateOf (buildIndices st sfData) payments) := by
  rw [compare_results]

theorem compare_cancelled (st : CmpState) (users : List UUser)
    (payments : List UPayment) (sfData : List SFRecord) :
    (DataComparer.compare st users payments sfData).2.cancelled =
      users.flatMap (cancelledOf (buildIndices st sfData)) := by
  rw [compare_results]

theorem compare_newUsers (st : CmpState) (users : List UUser)
    (payments : List UPayment) (sfData : List SFRecord) :
    (DataComparer.compare st users payments sfData).2.newUsers =
      users.flatMap (newUsersOf (buildIndices st sfData)) := by
  rw [compare_results]

theorem compare_noMatch (st : CmpState) (users : List UUser)
    (payments : List UPayment) (sfData : List SFRecord) :
    (DataComparer.compare st users payments sfData).2.noMatch =
      users.flatMap (noMatchOf (buildIndices st sfData)) := by
  rw [compare_results]

/-- C4, counterexample: the lookup indices are NOT rebuilt fresh per call.
A `compare` call that only feeds target records into an instance leaves
entries behind, and a later call on the same instance with an empty target
list still matches against them, unlike a call on a fresh instance. -/
theorem claim_C4_counterexample :
    (DataComparer.compare
        (DataComparer.compare initState [] [] [⟨some "1", none, none, none⟩]).1
        [⟨some "1", none, none, none, none⟩] [] []).2 ≠
      compareFresh [⟨some "1", none, none, none, none⟩] [] [] := by
  decide

/-- C4, amended: `compare` is deterministic and its result is a pure
function of the instance's accumulated index state together with the call's
inputs; but the indices persist across calls on one instance, so a second
call behaves exactly like a fresh call whose target records are the two
calls' target lists concatenated — an earlier invocation with different
target records therefore CAN affect a later result. -/
theorem claim_C4_state_carryover (st : CmpState) (u1 : List UUser)
    (p1 : List UPayment) (sf1 : List SFRecord) (u2 : List UUser)
    (p2 : List UPayment) (sf2 : List SFRecord) :
    (DataComparer.compare ((DataComparer.compare st u1 p1 sf1).1) u2 p2 sf2).2 =
      (DataComparer.compare st u2 p2 (sf1 ++ sf2)).2 := by
  have hb : buildIndices st (sf1 ++ sf2) = buildIndices (buildIndices st sf1) sf2 := by
    unfold buildIndices
    rw [List.foldl_append]
  show (DataComparer.compare (buildIndices st sf1) u2 p2 sf2).2 = _
  unfold DataComparer.compare
  rw [hb]

/-- C5: the three primary buckets partition the member list: the lengths of
`matched`, `newUsers` and `noMatch` sum to the number of members, and no
member value appears in two different primary buckets. -/
theorem claim_C5_partition (st : CmpState) (users : List UUser)
    (payments : List UPayment) (sfData : List SFRecord) :
    ((DataComparer.compare st users payments sfData).2.matched.length +
        (DataComparer.compare st users payments sfData).2.newUsers.length +
        (DataComparer.compare st users payments sfData).2.noMatch.length =
      users.length) ∧
    (∀ u : UUser,
      ¬((∃ e ∈ (DataComparer.compare st users payments sfData).2.matched,
            e.uscreenUser = u) ∧
        (∃ e ∈ (DataComparer.compare st users payments sfData).2.newUsers,
            e.uscreenUser = u))) ∧
    (∀ u : UUser,
      ¬((∃ e ∈ (DataComparer.compare st users payments sfData).2.matched,
            e.uscreenUser = u) ∧
        (∃ e ∈ (DataComparer.compare st users payments sfData).2.noMatch,
            e.uscreenUser = u))) ∧
    (∀ u : UUser,
      ¬((∃ e ∈ (DataComparer.compare st users payments sfData).2.newUsers,
            e.uscreenUser = u) ∧
        (∃ e ∈ (DataComparer.compare st users payments sfData).2.noMatch,
            e.uscreenUser = u))) := by
  rw [compare_matched, compare_newUsers, compare_noMatch]
  refine ⟨lengths_sum _ users, ?_, ?_, ?_⟩
  · rintro u ⟨⟨e, he, hp⟩, ⟨f, hf, hq⟩⟩
    rcases List.mem_flatMap.1 he with ⟨a, _, hfa⟩
    rcases mem_matchedOf hfa with ⟨sf, hm, hesh⟩
    have hea : e.uscreenUser = a := by rw [hesh]; rfl
    rcases List.mem_flatMap.1 hf with ⟨b, _, hfb⟩
    rcases newUsersOf_shape hfb with ⟨hmb, _, hfu⟩
    rw [hp] at hea
    rw [hq] at hfu
    rw [← hea, hfu] at hm
    rw [hmb] at hm
    exact Option.noConfusion hm
  · rintro u ⟨⟨e, he, hp⟩, ⟨f, hf, hq⟩⟩
    rcases List.mem_flatMap.1 he with ⟨a, _, hfa⟩
    rcases mem_matchedOf hfa with ⟨sf, hm, hesh⟩
    have hea : e.uscreenUser = a := by rw [hesh]; rfl
    rcases List.mem_flatMap.1 hf with ⟨b, _, hfb⟩
    rcases noMatchOf_shape hfb with ⟨hmb, _, hfu⟩
    rw [hp] at hea
    rw [hq] at hfu
    rw [← hea, hfu] at hm
    rw [hmb] at hm
    exact Option.noConfusion hm
  · rintro u ⟨⟨e, he, hp⟩, ⟨f, hf, hq⟩⟩
    rcases List.mem_flatMap.1 he with ⟨a, _, hfa⟩
    rcases newUsersOf_shape hfa with ⟨_, hga, hea⟩
    rcases List.mem_flatMap.1 hf with ⟨b, _, hfb⟩
    rcases noMatchOf_shape hfb with ⟨_, hgb, hfu⟩
    rw [hp] at hea
    rw [hq] at hfu
    have hab : a = b := hea.symm.trans hfu
    rw [← hab] at hgb
    rw [hga] at hgb
    exact Bool.noConfusion hgb

/-- C5, witness: on a one-member input the partition equation is `1`. -/
theorem claim_C5_witness :
    (compareFresh [⟨some "1", none, none, none, none⟩] []
        [⟨some "1", none, none, none⟩]).matched.length +
      (compareFresh [⟨some "1", none, none, none, none⟩] []
        [⟨some "1", none, none, none⟩]).newUsers.length +
      (compareFresh [⟨some "1", none, none, none, none⟩] []
        [⟨some "1", none, none, none⟩]).noMatch.length = 1 :=
  (claim_C5_partition initState [⟨some "1", none, none, none, none⟩] []
    [⟨some "1", none, none, none⟩]).1

/-- C6: `needsUpdate` and `cancelled` entries always come from `matched`
members (their `matchData` is itself an element of `matched`), and the two
secondary buckets are independent: concrete inputs exhibit a member in
both, a member in `needsUpdate` only, and a member in `cancelled` only. -/
theorem claim_C6_subsets :
    (∀ (st : CmpState) (users : List UUser) (payments : List UPayment)
        (sfData : List SFRecord),
      (∀ e ∈ (DataComparer.compare st users payments sfData).2.needsUpdate,
        e.matchData ∈ (DataComparer.compare st users payments sfData).2.matched) ∧
      (∀ e ∈ (DataComparer.compare st users payments sfData).2.cancelled,
        e.matchData ∈ (DataComparer.compare st users payments sfData).2.matched)) ∧
    ((compareFresh [⟨some "1", none, some "cancelled", none, none⟩]
        [⟨none, some "1", some "10", some "2024-01-01", none, none⟩]
        [⟨some "1", none, some "active", none⟩]).needsUpdate.length = 1 ∧
      (compareFresh [⟨some "1", none, some "cancelled", none, none⟩]
        [⟨none, some "1", some "10", some "2024-01-01", none, none⟩]
        [⟨some "1", none, some "active", none⟩]).cancelled.length = 1) ∧
    ((compareFresh [⟨some "1", none, none, none, none⟩]
        [⟨none, some "1", some "10", some "2024-01-01", none, none⟩]
        [⟨some "1", none, some "active", none⟩]).needsUpdate.length = 1 ∧
      (compareFresh [⟨some "1", none, none, none, none⟩]
        [⟨none, some "1", some "10", some "2024-01-01", none, none⟩]
        [⟨some "1", none, some "active", none⟩]).cancelled = []) ∧
    ((compareFresh [⟨some "1", none, some "cancelled", none, none⟩] []
        [⟨some "1", none, some "active", none⟩]).cancelled.length = 1 ∧
      (compareFresh [⟨some "1", none, some "cancelled", none, none⟩] []
        [⟨some "1", none, some "active", none⟩]).needsUpdate = []) := by
  refine ⟨?_, by decide, by decide, by decide⟩
  intro st users payments sfData
  rw [compare_needsUpdate, compare_cancelled, compare_matched]
  constructor
  · intro e he
    rcases List.mem_flatMap.1 he with ⟨a, ha, hfa⟩
    rcases needsUpdateOf_shape hfa with ⟨sf, lp, hm, _, _, hesh⟩
    apply List.mem_flatMap.2
    refine ⟨a, ha, ?_⟩
    rw [matchedOf_of_match hm, hesh]
    simp
  · intro e he
    rcases List.mem_flatMap.1 he with ⟨a, ha, hfa⟩
    rcases cancelledOf_shape hfa with ⟨sf, hm, _, hesh⟩
    apply List.mem_flatMap.2
    refine ⟨a, ha, ?_⟩
    rw [matchedOf_of_match hm, hesh]
    simp

/-- C6, witness: the `needsUpdate` entry of a concrete run projects to an
element of `matched`. -/
theorem claim_C6_witness :
    ({ matchData := mkMatchData ⟨some "1", none, some "cancelled", none, none⟩
          ⟨some "1", none, some "active", none⟩
       latestPayment := mkLatest ⟨none, some "1", some "10", some "2024-01-01", none, none⟩
       sfLastPaymentDate := none
       uscreenLastPaymentDate := some (some 19723) } : NeedsUpdateEntry).matchData ∈
      (DataComparer.compare initState [⟨some "1", none, some "cancelled", none, none⟩]
        [⟨none, some "1", some "10", some "2024-01-01", none, none⟩]
        [⟨some "1", none, some "active", none⟩]).2.matched :=
  (claim_C6_subsets.1 initState [⟨some "1", none, some "cancelled", none, none⟩]
    [⟨none, some "1", some "10", some "2024-01-01", none, none⟩]
    [⟨some "1", none, some "active", none⟩]).1 _ (by decide)

/-- C7: matching consults the id index first with the member's id coerced
to text, and a hit short-circuits email entirely; on a miss, a non-empty
lowercased email is looked up in the email index, and an empty email yields
no match; concretely, a member with empty id and email `a@x.com` matches a
target whose contact email is `A@X.COM`. -/
theorem claim_C7_matching :
    (∀ (st : CmpState) (u : UUser),
      (∀ sf : SFRecord, st.sfByUscreenId (jsStr u.userId) = some sf →
        matchUser st u = some sf) ∧
      (st.sfByUscreenId (jsStr u.userId) = none →
        ((lcString (u.email.getD "") ≠ "" →
            matchUser st u = st.sfByEmail (lcString (u.email.getD ""))) ∧
          (lcString (u.email.getD "") = "" → matchUser st u = none)))) ∧
    ((compareFresh [⟨some "", some "a@x.com", none, none, none⟩] []
        [⟨none, some "A@X.COM", none, none⟩]).matched.map (fun m => m.sfRecord) =
      [⟨none, some "A@X.COM", none, none⟩]) := by
  constructor
  · intro st u
    constructor
    · intro sf hhit
      unfold matchUser
      rw [hhit]
    · intro hmiss
      constructor
      · intro hne
        unfold matchUser
        rw [hmiss]
        simp [hne]
      · intro he
        unfold matchUser
        rw [hmiss]
        simp [he]
  · decide

/-- C7, witness: a member whose id hits the index is matched to that
record even though the emails differ. -/
theorem claim_C7_witness :
    matchUser (buildIndices initState [⟨some "7", some "x@y.com", none, none⟩])
        ⟨some "7", some "other@z.com", none, none, none⟩ =
      some ⟨some "7", some "x@y.com", none, none⟩ :=
  (claim_C7_matching.1 (buildIndices initState [⟨some "7", some "x@y.com", none, none⟩])
    ⟨some "7", some "other@z.com", none, none, none⟩).1
    ⟨some "7", some "x@y.com", none, none⟩ (by decide)

/-- C8: index construction is last-write-wins: a lookup under key `k`
returns the last record of the target list that occupies `k` (falling back
to whatever the instance's map held before), for both the id index and the
email index; consequently a member whose coerced id equals `k` resolves to
that last record. -/
theorem claim_C8_lastWriteWins (st : CmpState) (sfData : List SFRecord) (k : String) :
    ((buildIndices st sfData).sfByUscreenId k =
      (match (sfData.filter (idKeyHit k)).getLast? with
       | some r => some r
       | none => st.sfByUscreenId k)) ∧
    ((buildIndices st sfData).sfByEmail k =
      (match (sfData.filter (emailKeyHit k)).getLast? with
       | some r => some r
       | none => st.sfByEmail k)) ∧
    (∀ (u : UUser) (r : SFRecord), jsStr u.userId = k →
      (sfData.filter (idKeyHit k)).getLast? = some r →
      matchUser (buildIndices st sfData) u = some r) := by
  refine ⟨buildIndices_id_lookup st sfData k, buildIndices_email_lookup st sfData k, ?_⟩
  intro u r hk hr
  unfold matchUser
  rw [hk, buildIndices_id_lookup st sfData k, hr]

/-- C8, witness: with two target records sharing id `"1"`, a member with
that id resolves to the second record. -/
theorem claim_C8_witness :
    matchUser
        (buildIndices initState
          [⟨some "1", none, some "old", none⟩, ⟨some "1", none, some "new", none⟩])
        ⟨some "1", none, none, none, none⟩ =
      some ⟨some "1", none, some "new", none⟩ :=
  (claim_C8_lastWriteWins initState
    [⟨some "1", none, some "old", none⟩, ⟨some "1", none, some "new", none⟩] "1").2.2
    ⟨some "1", none, none, none, none⟩ ⟨some "1", none, some "new", none⟩
    (by decide) (by decide)

/-- C9: a matched member lands in `cancelled` exactly when their lowercased
status is `"cancelled"` or `"churned"` or their lowercased segment contains
`"churned"` — a test on source-member data only — and the entry carries
`previousStatus` copied from the matched target record's recorded
subscription status (and the fixed new status `"cancelled"`). -/
theorem claim_C9_cancelled_iff (st : CmpState) (users : List UUser)
    (payments : List UPayment) (sfData : List SFRecord) (u : UUser) (sf : SFRecord)
    (hu : u ∈ users) (hm : matchUser (buildIndices st sfData) u = some sf) :
    ((∃ e ∈ (DataComparer.compare st users payments sfData).2.cancelled,
        e.matchData.uscreenUser = u) ↔
      (lcString (u.status.getD "") = "cancelled" ∨
        lcString (u.status.getD "") = "churned" ∨
        jsIncludes (lcString (u.segment.getD "")) "churned" = true)) ∧
    (∀ e ∈ (DataComparer.compare st users payments sfData).2.cancelled,
      e.matchData.uscreenUser = u →
        e.previousStatus = sf.uscreenSubscriptionStatus ∧ e.newStatus = "cancelled") := by
  rw [compare_cancelled]
  constructor
  · rw [exists_user_cancelled_iff hu, ← isCancelledUser_iff]
    constructor
    · intro hne
      rcases List.exists_mem_of_ne_nil _ hne with ⟨e, he⟩
      rcases cancelledOf_shape he with ⟨sf2, _, hc, _⟩
      exact hc
    · intro hc
      rw [cancelledOf_of_cond hm hc]
      simp
  · intro e he hp
    rcases List.mem_flatMap.1 he with ⟨a, _, hfa⟩
    rcases cancelledOf_shape hfa with ⟨sf2, hm2, _, hesh⟩
    have hea : e.matchData.uscreenUser = a := by rw [hesh]; rfl
    rw [hp] at hea
    rw [← hea] at hm2
    rw [hm] at hm2
    have hsf : sf = sf2 := Option.some_inj.1 hm2
    rw [hesh, ← hsf]
    exact ⟨rfl, rfl⟩

/-- C9, witness: a member with status `"Cancelled"` matched by id appears
in `cancelled` with `previousStatus` taken from the target record. -/
theorem claim_C9_witness :
    ((∃ e ∈ (DataComparer.compare initState
          [⟨some "8", none, some "Cancelled", none, none⟩] []
          [⟨some "8", none, some "active", none⟩]).2.cancelled,
        e.matchData.uscreenUser = ⟨some "8", none, some "Cancelled", none, none⟩) ↔
      (lcString ((⟨some "8", none, some "Cancelled", none, none⟩ : UUser).status.getD "") =
          "cancelled" ∨
        lcString ((⟨some "8", none, some "Cancelled", none, none⟩ : UUser).status.getD "") =
          "churned" ∨
        jsIncludes (lcString ((⟨some "8", none, some "Cancelled", none, none⟩ : UUser).segment.getD ""))
          "churned" = true)) ∧
    (∀ e ∈ (DataComparer.compare initState
        [⟨some "8", none, some "Cancelled", none, none⟩] []
        [⟨some "8", none, some "active", none⟩]).2.cancelled,
      e.matchData.uscreenUser = ⟨some "8", none, some "Cancelled", none, none⟩ →
        e.previousStatus = (⟨some "8", none, some "active", none⟩ : SFRecord).uscreenSubscriptionStatus ∧
        e.newStatus = "cancelled") :=
  claim_C9_cancelled_iff initState [⟨some "8", none, some "Cancelled", none, none⟩] []
    [⟨some "8", none, some "active", none⟩] ⟨some "8", none, some "Cancelled", none, none⟩
    ⟨some "8", none, some "active", none⟩ (by decide) (by decide)

/-- C10: empty emails compare equal in payment association: when the
member's email chain and a payment's email chain are both absent or empty,
both normalize to `""`, so a payment with numerically positive parsed
amount qualifies for the member no matter what either user id is. -/
theorem claim_C10_emptyEmail (u : UUser) (p : UPayment) (id : Option String)
    (a : ℚ) (hu : u.email = none ∨ u.email = some "")
    (hp : p.email = none ∨ p.email = some "")
    (hamt : parseAmountJs p.amount = some a) (hpos : 0 < a) :
    qualifies p (lcString (u.email.getD "")) id = true := by
  have he : lcString (u.email.getD "") = "" := by
    rcases hu with h | h <;> rw [h] <;> rfl
  have hpe : lcString (p.email.getD "") = "" := by
    rcases hp with h | h <;> rw [h] <;> rfl
  have hna : ¬ a ≤ 0 := not_le.2 hpos
  unfold qualifies
  rw [hpe, he, hamt]
  simp [jsLeZeroQ, hna]

/-- C10, witness: a payment with empty email and amount `10` qualifies for
a member with no email even though the ids differ. -/
theorem claim_C10_witness :
    qualifies ⟨some "", some "9", some "10", none, none, none⟩
      (lcString ((⟨some "1", none, none, none, none⟩ : UUser).email.getD ""))
      (some "1") = true :=
  claim_C10_emptyEmail ⟨some "1", none, none, none, none⟩
    ⟨some "", some "9", some "10", none, none, none⟩ (some "1") 10
    (Or.inl rfl) (Or.inr rfl) (by decide) (by decide)

/-- C1, counterexample: a matched member whose single qualifying payment
carries an unparseable charge date, against a target with no recorded
`lastPaymentDate`, IS pushed to `needsUpdate` — although under the spec's
sentinel policy both dates are the earliest-possible instant, so the
payment's parsed date is not strictly greater than the target's. -/
theorem claim_C1_counterexample :
    ((compareFresh [⟨some "1", none, none, none, none⟩]
        [⟨none, some "1", some "10", some "garbage", none, none⟩]
        [⟨some "1", none, none, none⟩]).needsUpdate.map
          (fun e => e.matchData.uscreenUser) =
      [⟨some "1", none, none, none, none⟩]) ∧
    (findLatestPayment [⟨none, some "1", some "10", some "garbage", none, none⟩]
        "" (some "1") =
      some (mkLatest ⟨none, some "1", some "10", some "garbage", none, none⟩)) ∧
    parseDateJs "garbage" = none ∧
    ¬ specParsedDate (some "garbage") > specParsedDate none := by
  refine ⟨by decide, by decide, by decide, ?_⟩
  decide

/-- C1, amended: a matched member is pushed to `needsUpdate` iff
`findLatestPayment` yields a payment whose charge-date field is present and
non-empty, and either the target has no recorded `lastPaymentDate` or the
JS comparison `new Date(payment) > new Date(target)` holds — which is false
whenever either date fails to parse.  In particular equal parsed dates
never trigger an update, but a payment with an unparseable date does
trigger one when the target date is absent, and a dated payment does not
trigger one when the target date is present but unparseable. -/
theorem claim_C1_needsUpdate_iff (st : CmpState) (users : List UUser)
    (payments : List UPayment) (sfData : List SFRecord) (u : UUser) (sf : SFRecord)
    (hu : u ∈ users) (hm : matchUser (buildIndices st sfData) u = some sf) :
    (∃ e ∈ (DataComparer.compare st users payments sfData).2.needsUpdate,
        e.matchData.uscreenUser = u) ↔
      ∃ lp, findLatestPayment payments (lcString (u.email.getD "")) u.userId = some lp ∧
        truthyS lp.chargeDate = true ∧
        (truthyS sf.uscreenLastPaymentDate = false ∨
          jsDateGt (some (parseDateJs (lp.chargeDate.getD "")))
            (some (parseDateJs (sf.uscreenLastPaymentDate.getD ""))) = true) := by
  rw [compare_needsUpdate, exists_user_needsUpdate_iff hu]
  constructor
  · intro hne
    rcases List.exists_mem_of_ne_nil _ hne with ⟨e, he⟩
    rcases needsUpdateOf_shape he with ⟨sf2, lp, hm2, hf, hc, _⟩
    rw [hm] at hm2
    have hsf : sf = sf2 := Option.some_inj.1 hm2
    rw [← hsf] at hc
    exact ⟨lp, hf, (needsUpdateCond_iff sf lp).1 hc⟩
  · rintro ⟨lp, hf, h1, h2⟩
    rw [needsUpdateOf_of_cond hm hf ((needsUpdateCond_iff sf lp).2 ⟨h1, h2⟩)]
    simp

/-- C1, witness: a member matched by id, with a payment dated strictly
after the target's recorded date, satisfies the update condition. -/
theorem claim_C1_witness :
    (∃ e ∈ (DataComparer.compare initState [⟨some "2", none, none, none, none⟩]
        [⟨none, some "2", some "20", some "2024-02-01", none, none⟩]
        [⟨some "2", none, none, some "2024-01-01"⟩]).2.needsUpdate,
      e.matchData.uscreenUser = ⟨some "2", none, none, none, none⟩) ↔
      ∃ lp, findLatestPayment [⟨none, some "2", some "20", some "2024-02-01", none, none⟩]
          (lcString ((⟨some "2", none, none, none, none⟩ : UUser).email.getD ""))
          (⟨some "2", none, none, none, none⟩ : UUser).userId = some lp ∧
        truthyS lp.chargeDate = true ∧
        (truthyS (⟨some "2", none, none, some "2024-01-01"⟩ : SFRecord).uscreenLastPaymentDate = false ∨
          jsDateGt (some (parseDateJs (lp.chargeDate.getD "")))
            (some (parseDateJs ((⟨some "2", none, none, some "2024-01-01"⟩ : SFRecord).uscreenLastPaymentDate.getD ""))) = true) :=
  claim_C1_needsUpdate_iff initState [⟨some "2", none, none, none, none⟩]
    [⟨none, some "2", some "20", some "2024-02-01", none, none⟩]
    [⟨some "2", none, none, some "2024-01-01"⟩]
    ⟨some "2", none, none, none, none⟩ ⟨some "2", none, none, some "2024-01-01"⟩
    (by decide) (by decide)

/-- C2, counterexample: a payment whose amount field is the unparseable
string `"abc"` (JS `parseFloat` gives `NaN`, not a strictly positive
number) nevertheless qualifies — `NaN <= 0` is false — and is returned by
`findLatestPayment`, refuting both directions of the claimed equivalence
for unparseable amounts. -/
theorem claim_C2_counterexample :
    qualifies ⟨some "a@x.com", some "9", some "abc", some "2024-01-01", none, none⟩
        "a@x.com" (some "1") = true ∧
    parseAmountJs (⟨some "a@x.com", some "9", some "abc", some "2024-01-01", none, none⟩ : UPayment).amount = none ∧
    findLatestPayment [⟨some "a@x.com", some "9", some "abc", some "2024-01-01", none, none⟩]
        "a@x.com" (some "1") =
      some (mkLatest ⟨some "a@x.com", some "9", some "abc", some "2024-01-01", none, none⟩) ∧
    (mkLatest ⟨some "a@x.com", some "9", some "abc", some "2024-01-01", none, none⟩).amount = none := by
  refine ⟨by decide, by decide, by decide, by decide⟩

/-- C2, amended: a payment qualifies iff its parsed amount is NOT a number
`<= 0` (missing or empty amount fields parse to `0` and never qualify, but
an unparseable amount gives `NaN`, which passes the `amount <= 0` exclusion
and so can qualify and be returned) and its lowercased email equals the
member's or its user id as text equals the member's id as text;
consequently no payment whose amount parses to a number `<= 0` is ever
returned by `findLatestPayment`. -/
theorem claim_C2_qualification :
    (∀ (p : UPayment) (email : String) (id : Option String),
      qualifies p email id = true ↔
        jsLeZeroQ (parseAmountJs p.amount) = false ∧
          (lcString (p.email.getD "") = email ∨ p.userId.getD "" = jsStr id)) ∧
    (∀ (p : UPayment) (email : String) (id : Option String),
      p.amount = none ∨ p.amount = some "" → qualifies p email id = false) ∧
    (∀ (ps : List UPayment) (email : String) (id : Option String) (lp : LatestPayment),
      findLatestPayment ps email id = some lp → jsLeZeroQ lp.amount = false) := by
  refine ⟨fun p email id => qualifies_iff, ?_, ?_⟩
  · intro p email id hmiss
    have hz : parseAmountJs p.amount = some 0 := by
      rcases hmiss with h | h <;> rw [h] <;> rfl
    unfold qualifies
    rw [hz]
    simp [jsLeZeroQ]
  · intro ps email id lp hf
    rcases findLatestPayment_some_iff.1 hf with ⟨q, t, hs, hlp⟩
    have hq : q ∈ sortPays (ps.filter (fun p => qualifies p email id)) := by
      rw [hs]
      exact List.mem_cons_self q t
    have hqf := mem_sortPays.1 hq
    have hqual := (List.mem_filter.1 hqf).2
    have hle := (qualifies_iff.1 hqual).1
    rw [hlp]
    exact hle

/-- C2, witness: a returned latest payment never has a numeric amount
`<= 0`. -/
theorem claim_C2_witness :
    jsLeZeroQ (mkLatest ⟨some "a@x.com", none, some "10", none, none, none⟩).amount = false :=
  claim_C2_qualification.2.2 [⟨some "a@x.com", none, some "10", none, none, none⟩]
    "a@x.com" (some "1") (mkLatest ⟨some "a@x.com", none, some "10", none, none, none⟩)
    (by decide)

/-- C3, counterexample: a qualifying payment with a missing charge date
sorts at the Unix epoch, not at the earliest-possible instant, so it IS
selected over a qualifying payment dated 1969-12-31 (one day before the
epoch), refuting the claim that an undated payment is never chosen over a
dated one. -/
theorem claim_C3_counterexample :
    findLatestPayment
        [⟨some "a@x.com", none, some "5", some "1969-12-31", none, none⟩,
         ⟨some "a@x.com", none, some "5", none, none, none⟩]
        "a@x.com" (some "1") =
      some (mkLatest ⟨some "a@x.com", none, some "5", none, none, none⟩) ∧
    (⟨some "a@x.com", none, some "5", none, none, none⟩ : UPayment).chargeDate = none ∧
    qualifies ⟨some "a@x.com", none, some "5", some "1969-12-31", none, none⟩
        "a@x.com" (some "1") = true ∧
    parseDateJs "1969-12-31" = some (-1) ∧
    paySortVal ⟨some "a@x.com", none, some "5", none, none, none⟩ = some 0 := by
  refine ⟨by decide, by decide, by decide, by decide, by decide⟩

/-- C3, amended: `findLatestPayment` returns none iff no payment
qualifies; otherwise it returns (the packaged form of) a qualifying
payment whose sort key — the parsed charge date, with missing/empty date
fields sorting at the Unix epoch, not the earliest instant — is maximal
among all qualifying candidates with valid (non-`NaN`) keys.  A payment
with a missing date can therefore be selected over one dated before 1970,
and is still returned when it is the only qualifying payment; candidates
with unparseable date strings have `NaN` keys, for which the JS sort
comparator is inconsistent and the model fixes the
implementation-defined order. -/
theorem claim_C3_selection (ps : List UPayment) (email : String) (id : Option String) :
    (findLatestPayment ps email id = none ↔ ∀ p ∈ ps, qualifies p email id = false) ∧
    (∀ lp, findLatestPayment ps email id = some lp →
      ∃ q, q ∈ ps ∧ qualifies q email id = true ∧ lp = mkLatest q ∧
        ∀ p ∈ ps, qualifies p email id = true →
          ∀ kp kq : Int, paySortVal p = some kp → paySortVal q = some kq → kp ≤ kq) := by
  refine ⟨findLatestPayment_none_iff, ?_⟩
  intro lp hf
  rcases findLatestPayment_some_iff.1 hf with ⟨q, t, hs, hlp⟩
  have hq : q ∈ sortPays (ps.filter (fun p => qualifies p email id)) := by
    rw [hs]
    exact List.mem_cons_self q t
  have hqf := mem_sortPays.1 hq
  have hqmem := List.mem_filter.1 hqf
  refine ⟨q, hqmem.1, hqmem.2, hlp, ?_⟩
  intro p hp hqual kp kq hkp hkq
  have hpf : p ∈ ps.filter (fun p => qualifies p email id) :=
    List.mem_filter.2 ⟨hp, hqual⟩
  exact sortPays_head_max hs p hpf kp kq hkp hkq

/-- C3, witness: with one dated qualifying payment, it is returned and its
key dominates. -/
theorem claim_C3_witness :
    ∃ q, q ∈ [(⟨some "a@x.com", none, some "5", some "2024-03-01", none, none⟩ : UPayment)] ∧
      qualifies q "a@x.com" (some "1") = true ∧
      mkLatest ⟨some "a@x.com", none, some "5", some "2024-03-01", none, none⟩ = mkLatest q ∧
      ∀ p ∈ [(⟨some "a@x.com", none, some "5", some "2024-03-01", none, none⟩ : UPayment)],
        qualifies p "a@x.com" (some "1") = true →
        ∀ kp kq : Int, paySortVal p = some kp → paySortVal q = some kq → kp ≤ kq :=
  (claim_C3_selection [⟨some "a@x.com", none, some "5", some "2024-03-01", none, none⟩]
    "a@x.com" (some "1")).2
    (mkLatest ⟨some "a@x.com", none, some "5", some "2024-03-01", none, none⟩)
    (by decide)

end UscreenExtract
